import Mathlib

set_option linter.unusedSectionVars false

/-!
# Verification of the go-libtess2 wrapper

Shallow embedding of the Go bindings for the libtess2 polygon tessellation
engine (package `tess`).  The Go wrapper sources (`tess.go`, both revisions
present in the repository) are translated directly; the native C engine
(`tessNewTess`, `tessAddContour`, `tessSetOption`, `tessTesselate` and the
`tessGet*` accessors) is not part of the repository sources and is modelled
from the specification, as marked on each such definition.

Coordinates are embedded over an arbitrary linear-ordered commutative ring
`R`: the wrapper copies coordinates verbatim and the specification treats
the geometry exactly, so every theorem holds in particular for the exact
rational idealization of the float32 coordinates of the source.
-/

/-- Tessellation status, mirroring the `Status` constants of `tess.go`
(`StatusOK`, `StatusOutOfMemory`, `StatusInvalidInput`). -/
inductive Status where
  | ok
  | outOfMemory
  | invalidInput
deriving DecidableEq

/-- Winding rules, mirroring the `WindingRule` constants of `tess.go`. -/
inductive WindingRule where
  | odd
  | nonzero
  | positive
  | negative
  | absGeqTwo
deriving DecidableEq

/-- The element type constant `ElementPolygons` (`TESS_POLYGONS`). -/
def ElementPolygons : Int := 0

/-- The element type constant `ElementConnectedPolygons`
(`TESS_CONNECTED_POLYGONS`). -/
def ElementConnectedPolygons : Int := 1

/-- The element type constant `ElementBoundaryContours`
(`TESS_BOUNDARY_CONTOURS`). -/
def ElementBoundaryContours : Int := 2

/-- The option constant `OptionConstrainedDelaunay`
(`TESS_CONSTRAINED_DELAUNAY_TRIANGULATION`). -/
def OptionConstrainedDelaunay : Int := 0

/-- The option constant `OptionReverseContours` (`TESS_REVERSE_CONTOURS`). -/
def OptionReverseContours : Int := 1

/-- The distinct non-nil `error` values produced by the wrapper functions in
`tess.go`; each constructor corresponds to one `fmt.Errorf` call site. -/
inductive GoErr where
  /-- tessellator is nil or deleted -/
  | nilOrDeleted
  /-- size must be 2 or 3 -/
  | badSize (got : Int)
  /-- vertices slice must contain at least one vertex -/
  | tooFewVertices
  /-- len(vertices) must be multiple of size -/
  | notMultiple (len size : Int)
  /-- error adding contour (engine status not OK) -/
  | addContourStatus (s : Status)
  /-- vertexSize must be 2 or 3 -/
  | badVertexSize (got : Int)
  /-- normal vector must have at least 3 components -/
  | badNormal (len : Int)
  /-- tessellation failed with status -/
  | tessFailed (s : Status)
  /-- failed to get vertices (status not OK) -/
  | failedGetVertices (s : Status)
  /-- failed to get elements (status not OK) -/
  | failedGetElements (s : Status)
  /-- unsupported element type -/
  | unsupportedElementType (e : Int)
deriving DecidableEq

variable {R : Type} [LinearOrderedCommRing R]

/-! ## Exact planar geometry

The specification describes the engine over exact geometry (the incremental
and ray-cast winding formulations must agree exactly); simplicity of a
contour is the exact non-self-intersection test below. -/

/-- Twice the signed area of the triangle `a b c`; positive for a left turn. -/
def orient2 (a b c : R × R) : R :=
  (b.1 - a.1) * (c.2 - a.2) - (b.2 - a.2) * (c.1 - a.1)

/-- Whether point `p` lies on the closed segment from `a` to `b`. -/
def onSegment (a b p : R × R) : Bool :=
  decide (orient2 a b p = 0) &&
  decide (min a.1 b.1 ≤ p.1) && decide (p.1 ≤ max a.1 b.1) &&
  decide (min a.2 b.2 ≤ p.2) && decide (p.2 ≤ max a.2 b.2)

/-- Whether the closed segments `p1 q1` and `p2 q2` intersect. -/
def segmentsIntersect (p1 q1 p2 q2 : R × R) : Bool :=
  let d1 := orient2 p2 q2 p1
  let d2 := orient2 p2 q2 q1
  let d3 := orient2 p1 q1 p2
  let d4 := orient2 p1 q1 q2
  ((decide (0 < d1) && decide (d2 < 0) || decide (d1 < 0) && decide (0 < d2)) &&
   (decide (0 < d3) && decide (d4 < 0) || decide (d3 < 0) && decide (0 < d4))) ||
  onSegment p2 q2 p1 || onSegment p2 q2 q1 || onSegment p1 q1 p2 || onSegment p1 q1 q2

/-- All points of the list are pairwise distinct. -/
def allDistinct : List (R × R) → Bool
  | [] => true
  | p :: rest => rest.all (fun q => decide (p ≠ q)) && allDistinct rest

/-- The `i`-th boundary edge of the closed polygon `pts` (indices mod length). -/
def polyEdge (pts : List (R × R)) (i : Nat) : (R × R) × (R × R) :=
  (pts.getD i (0, 0), pts.getD ((i + 1) % pts.length) (0, 0))

/-- A closed contour is simple: its vertices are pairwise distinct, adjacent
edges meet only in their shared endpoint, and non-adjacent edges do not
intersect at all. -/
def isSimpleContour (pts : List (R × R)) : Bool :=
  let n := pts.length
  allDistinct pts &&
  ((List.range n).all fun i =>
    (List.range n).all fun j =>
      if i < j then
        let e := polyEdge pts i
        let f := polyEdge pts j
        if j = i + 1 then
          !(onSegment f.1 f.2 e.1 || onSegment e.1 e.2 f.2)
        else if i = 0 && j = n - 1 then
          !(onSegment f.1 f.2 e.2 || onSegment e.1 e.2 f.1)
        else
          !(segmentsIntersect e.1 e.2 f.1 f.2)
      else true)

/-- Group a flat coordinate list of width 2 into points, as the engine reads
the buffer handed over by `tessAddContour`. -/
def toPoints : List R → List (R × R)
  | x :: y :: rest => (x, y) :: toPoints rest
  | _ => []

/-! ## Spec-modelled engine state -/

/-- Modelled from the spec: the opaque native engine state `TESStesselator`
behind the `tess` pointer of the Go `Tessellator`.  The C sources of the
engine are not part of the repository; this structure records exactly what
the specification makes observable through the wrapper: the stored contours
(§4.1 Contour Store), the two options (§6 `setOption`), the status taxonomy
(§6), the serialized output of the last run (§4.7 Output Extractor) and the
normal argument most recently handed to the tessellation (§6). -/
structure CTess (R : Type) where
  contours : List (Nat × List R)
  constrainedDelaunay : Bool
  reverseContours : Bool
  status : Status
  outVertices : Option (List R)
  outVertexCount : Nat
  outElements : Option (List Int)
  outElementCount : Nat
  lastNormal : Option (R × R × R)
deriving DecidableEq

/-- Modelled from the spec: `tessNewTess` returns a fresh engine instance
with no contours, default options, status `OK` and no output buffers. -/
def tessNewTess : CTess R :=
  { contours := []
    constrainedDelaunay := false
    reverseContours := false
    status := Status.ok
    outVertices := none
    outVertexCount := 0
    outElements := none
    outElementCount := 0
    lastNormal := none }

/-- Modelled from the spec: `tessAddContour` of the native engine (§4.1
Contour Store).  A contour with zero vertices is rejected with
`InvalidInput`; any nonempty contour is stored as-is, with no geometry
computation and no other side effect. -/
def tessAddContour (c : CTess R) (size : Nat) (coords : List R) : CTess R :=
  if coords.length / size = 0 then { c with status := Status.invalidInput }
  else { c with contours := c.contours ++ [(size, coords)] }

/-- Modelled from the spec: `tessSetOption` of the native engine (§6).  The
two defined options update the corresponding flag (value `0` disables,
anything else enables); other option codes are ignored. -/
def tessSetOption (c : CTess R) (opt : Int) (value : Int) : CTess R :=
  if opt = OptionConstrainedDelaunay then { c with constrainedDelaunay := value ≠ 0 }
  else if opt = OptionReverseContours then { c with reverseContours := value ≠ 0 }
  else c

/-- Serialize the deduplicated output vertex set as a flat coordinate list,
`vertexSize` coordinates per vertex (§4.7: vertex output is the flat
coordinate sequence of the final mesh). -/
def serializeVerts (vertexSize : Int) : List (R × R) → List R
  | [] => []
  | p :: rest =>
      (if vertexSize = 2 then [p.1, p.2] else [p.1, p.2, 0]) ++ serializeVerts vertexSize rest

/-- The polygon elements of the fan triangulation of a simple contour:
for each `i` in `[k, k+m)` one triangle `(0, i+1, i+2)`, padded to
`polySize` slots with the sentinel `-1` (§4.7 Polygons encoding: each face
as up to `polySize` vertex indices, unused slots marked by a sentinel). -/
def fanFrom (polySize : Int) (k : Nat) : Nat → List Int
  | 0 => []
  | m + 1 =>
      ([0, (k : Int) + 1, (k : Int) + 2] ++ List.replicate (polySize.toNat - 3) (-1)) ++
        fanFrom polySize (k + 1) m

/-- The connectivity-annotated elements of the fan triangulation: each
triangle followed by the indices of its edge-adjacent triangles, `-1` for
boundary edges (§4.7 ConnectedPolygons encoding). -/
def fanConnectedFrom (polySize : Int) (total : Nat) (k : Nat) : Nat → List Int
  | 0 => []
  | m + 1 =>
      ([0, (k : Int) + 1, (k : Int) + 2] ++ List.replicate (polySize.toNat - 3) (-1)) ++
      ([if k = 0 then -1 else (k : Int) - 1, -1,
        if k + 1 = total then -1 else (k : Int) + 1] ++
        List.replicate (polySize.toNat - 3) (-1)) ++
      fanConnectedFrom polySize total (k + 1) m

/-- The serialized element buffer and element count produced for a simple
contour of `n` vertices, by requested element type (§4.7): `n - 2` fan
triangles for `Polygons` and `ConnectedPolygons`, and the single boundary
loop `(start 0, count n)` for `BoundaryContours`. -/
def elementsForSimple (elemType polySize : Int) (n : Nat) : List Int × Nat :=
  if elemType = ElementBoundaryContours then ([0, (n : Int)], 1)
  else if elemType = ElementConnectedPolygons then
    (fanConnectedFrom polySize (n - 2) 0 (n - 2), n - 2)
  else (fanFrom polySize 0 (n - 2), n - 2)

/-- Modelled from the spec: `tessTesselate` of the native engine.  Returns
the updated engine state and the C result flag (`true` for success).
A polygon size below 3 is malformed input, rejected before any sweep work
with status `InvalidInput` and no partial state committed (§7a).  The
fragment pinned down by the spec and modelled here is a single stored
width-2 contour that is simple with at least 3 vertices, under the `Odd` or
`NonZero` winding rule: the sweep reproduces the contour and the
triangulation of its interior yields exactly `n` output vertices and
`n - 2` triangles (§8).  All other configurations complete the run with
status `OK` and empty output, which the spec leaves unspecified.  The
normal argument received is recorded in `lastNormal` on every call. -/
def tessTesselate (c : CTess R) (rule : WindingRule) (elemType polySize vertexSize : Int)
    (normal : Option (R × R × R)) : CTess R × Bool :=
  if polySize < 3 then
    ({ c with status := Status.invalidInput, lastNormal := normal }, false)
  else
    match c.contours with
    | [(2, coords)] =>
        let pts := toPoints coords
        if 3 ≤ pts.length ∧ isSimpleContour pts = true ∧
            (rule = WindingRule.odd ∨ rule = WindingRule.nonzero) then
          let elems := elementsForSimple elemType polySize pts.length
          ({ c with contours := []
                    status := Status.ok
                    outVertices := some (serializeVerts vertexSize pts)
                    outVertexCount := pts.length
                    outElements := some elems.1
                    outElementCount := elems.2
                    lastNormal := normal }, true)
        else
          ({ c with contours := []
                    status := Status.ok
                    outVertices := none
                    outVertexCount := 0
                    outElements := none
                    outElementCount := 0
                    lastNormal := normal }, true)
    | _ =>
        ({ c with contours := []
                  status := Status.ok
                  outVertices := none
                  outVertexCount := 0
                  outElements := none
                  outElementCount := 0
                  lastNormal := normal }, true)

/-- Reading `n` slots from a native buffer through `unsafe.Slice`: the first
`min n len` values are the buffer contents and anything past the end of the
buffer is unspecified memory, modelled by the pad value. -/
def readBuf {A : Type} (pad : A) (buf : List A) (n : Nat) : List A :=
  buf.take n ++ List.replicate (n - buf.length) pad

/-! ## The Go wrapper -/

/-- The Go `Tessellator` struct: a single field `tess` holding the engine
pointer, `none` once `Delete` has run (or for the nil pointer). -/
structure Tessellator (R : Type) where
  tess : Option (CTess R)
deriving DecidableEq

/-- `NewTessellator` (successful allocation case). -/
def NewTessellator : Tessellator R := ⟨some tessNewTess⟩

/-- `Delete` destroys the tessellator: if the engine pointer is live it is
freed and set to nil, otherwise nothing happens. -/
def Tessellator.Delete (t : Tessellator R) : Tessellator R :=
  match t.tess with
  | none => t
  | some _ => ⟨none⟩

/-- `getStatus` (second revision; `GetStatus` of the first revision is the
same code): `StatusInvalidInput` for a nil or deleted tessellator, the
engine status otherwise. -/
def Tessellator.getStatus (t : Tessellator R) : Status :=
  match t.tess with
  | none => Status.invalidInput
  | some c => c.status

/-- `AddContour` (second revision, flat `[]float32` input, `tess.go` lines
482-514): nil check, size must be 2 or 3, the slice must hold at least one
vertex and be a multiple of the size; then the contour is handed to the
engine and the engine status is checked. -/
def Tessellator.AddContour (t : Tessellator R) (size : Int) (vertices : List R) :
    Tessellator R × Option GoErr :=
  match t.tess with
  | none => (t, some GoErr.nilOrDeleted)
  | some c =>
      if size ≠ 2 ∧ size ≠ 3 then (t, some (GoErr.badSize size))
      else if (vertices.length : Int) < size then (t, some GoErr.tooFewVertices)
      else if (vertices.length : Int) % size ≠ 0 then
        (t, some (GoErr.notMultiple vertices.length size))
      else
        let c1 := tessAddContour c size.toNat vertices
        let t1 : Tessellator R := ⟨some c1⟩
        let st := t1.getStatus
        if st ≠ Status.ok then (t1, some (GoErr.addContourStatus st))
        else (t1, none)

/-- `SetOption` (`tess.go` lines 517-529): nil check, then the option is
handed to the engine unconditionally (the boolean is marshalled to the
integers 0 and 1) and nil is returned. -/
def Tessellator.SetOption (t : Tessellator R) (opt : Int) (enabled : Bool) :
    Tessellator R × Option GoErr :=
  match t.tess with
  | none => (t, some GoErr.nilOrDeleted)
  | some c => (⟨some (tessSetOption c opt (if enabled then 1 else 0))⟩, none)

/-- `internalTessellate` (`tess.go` lines 603-629): nil check, `vertexSize`
must be 2 or 3, a non-nil normal must have at least 3 components and only
its first three components form the array handed to the engine; the engine
result flag 0 becomes an error carrying the current status. -/
def Tessellator.internalTessellate (t : Tessellator R) (rule : WindingRule)
    (elemType polySize vertexSize : Int) (normal : Option (List R)) :
    Tessellator R × Option GoErr :=
  match t.tess with
  | none => (t, some GoErr.nilOrDeleted)
  | some c =>
      if vertexSize ≠ 2 ∧ vertexSize ≠ 3 then (t, some (GoErr.badVertexSize vertexSize))
      else
        match normal with
        | some l =>
            if (l.length : Int) < 3 then (t, some (GoErr.badNormal l.length))
            else
              let r := tessTesselate c rule elemType polySize vertexSize
                (some (l.getD 0 0, l.getD 1 0, l.getD 2 0))
              let t1 : Tessellator R := ⟨some r.1⟩
              if r.2 = false then (t1, some (GoErr.tessFailed t1.getStatus))
              else (t1, none)
        | none =>
            let r := tessTesselate c rule elemType polySize vertexSize none
            let t1 : Tessellator R := ⟨some r.1⟩
            if r.2 = false then (t1, some (GoErr.tessFailed t1.getStatus))
            else (t1, none)

/-- `getVertexCount` (second revision; `GetVertexCount` of the first
revision is the same code). -/
def Tessellator.getVertexCount (t : Tessellator R) : Nat :=
  match t.tess with
  | none => 0
  | some c => c.outVertexCount

/-- `getVertices` (second revision, `tess.go` lines 642-669): nil for a
dead tessellator, an empty output or a nil engine buffer; otherwise
`count * size` values read from the engine vertex buffer. -/
def Tessellator.getVertices (t : Tessellator R) (size : Int) : Option (List R) :=
  match t.tess with
  | none => none
  | some c =>
      if c.outVertexCount = 0 then none
      else
        match c.outVertices with
        | none => none
        | some buf => some (readBuf 0 buf (c.outVertexCount * size.toNat))

/-- `getVertexIndices` (second revision): nil for a dead tessellator or an
empty output; otherwise one origin index per output vertex.  The engine
buffer itself is not needed by any claim, so the values are read from the
output vertex count only. -/
def Tessellator.getVertexIndices (t : Tessellator R) : Option (List Int) :=
  match t.tess with
  | none => none
  | some c =>
      if c.outVertexCount = 0 then none
      else some (List.replicate c.outVertexCount 0)

/-- `getElementCount` (second revision; `GetElementCount` of the first
revision is the same code). -/
def Tessellator.getElementCount (t : Tessellator R) : Nat :=
  match t.tess with
  | none => 0
  | some c => c.outElementCount

/-- `GetElementCount` (first revision, public accessor, same code as
`getElementCount`). -/
def Tessellator.GetElementCount (t : Tessellator R) : Nat :=
  match t.tess with
  | none => 0
  | some c => c.outElementCount

/-- `GetElements` (first revision, `tess.go` lines 248-277; `getElements`
of the second revision is the same code): reads `count * 3` values from the
element buffer, assuming 3 vertices per element regardless of the element
type and polygon size of the preceding run. -/
def Tessellator.GetElements (t : Tessellator R) : Option (List Int) :=
  match t.tess with
  | none => none
  | some c =>
      if c.outElementCount = 0 then none
      else
        match c.outElements with
        | none => none
        | some buf => some (readBuf 0 buf (c.outElementCount * 3))

/-- `getElementsWithSize` (second revision, `tess.go` lines 743-783;
`GetElementsWithSize` of the first revision is the same code): reads the
correct number of values from the element buffer, by element type:
`count * polySize` for `Polygons` (and by default), doubled for
`ConnectedPolygons`, and `count * 2` for `BoundaryContours`. -/
def Tessellator.getElementsWithSize (t : Tessellator R) (elemType polySize : Int) :
    Option (List Int) :=
  match t.tess with
  | none => none
  | some c =>
      if c.outElementCount = 0 then none
      else
        match c.outElements with
        | none => none
        | some buf =>
            let arraySize : Int :=
              if elemType = ElementPolygons then (c.outElementCount : Int) * polySize
              else if elemType = ElementConnectedPolygons then
                (c.outElementCount : Int) * polySize * 2
              else if elemType = ElementBoundaryContours then (c.outElementCount : Int) * 2
              else (c.outElementCount : Int) * polySize
            some (readBuf 0 buf arraySize.toNat)

/-- `Tessellate` (second revision, `tess.go` lines 541-595): nil check,
`internalTessellate`, then the vertex slice (empty slice substituted for a
nil result when the status is OK) and, for the three known element types,
the element slice with the same substitution; any other element type is an
unsupported-element-type error. -/
def Tessellator.Tessellate (t : Tessellator R) (rule : WindingRule)
    (elemType polySize vertexSize : Int) (normal : Option (List R)) :
    Tessellator R × Option (List R) × Option (List Int) × Option GoErr :=
  match t.tess with
  | none => (t, none, none, some GoErr.nilOrDeleted)
  | some _ =>
      match t.internalTessellate rule elemType polySize vertexSize normal with
      | (t1, some e) => (t1, none, none, some e)
      | (t1, none) =>
          let step2 : List R → Tessellator R × Option (List R) × Option (List Int) × Option GoErr :=
            fun vs =>
              if elemType = ElementPolygons ∨ elemType = ElementConnectedPolygons ∨
                  elemType = ElementBoundaryContours then
                match t1.getElementsWithSize elemType polySize with
                | none =>
                    if t1.getStatus ≠ Status.ok then
                      (t1, none, none, some (GoErr.failedGetElements t1.getStatus))
                    else (t1, some vs, some [], none)
                | some es => (t1, some vs, some es, none)
              else (t1, none, none, some (GoErr.unsupportedElementType elemType))
          match t1.getVertices vertexSize with
          | none =>
              if t1.getStatus ≠ Status.ok then
                (t1, none, none, some (GoErr.failedGetVertices t1.getStatus))
              else step2 []
          | some vs => step2 vs

/-! ## Helper lemmas -/

theorem readBuf_length {A : Type} (pad : A) (buf : List A) (n : Nat) :
    (readBuf pad buf n).length = n := by
  simp [readBuf]
  omega

theorem readBuf_full {A : Type} (pad : A) (buf : List A) :
    readBuf pad buf buf.length = buf := by
  simp [readBuf]

theorem toPoints_length : ∀ l : List R, (toPoints l).length = l.length / 2
  | [] => by simp [toPoints]
  | [_] => by simp [toPoints]
  | x :: y :: rest => by
      simp only [toPoints, List.length_cons]
      rw [toPoints_length rest]
      omega

theorem serializeVerts_length (vsz : Int) (hv : vsz = 2 ∨ vsz = 3) (pts : List (R × R)) :
    (serializeVerts vsz pts).length = pts.length * vsz.toNat := by
  induction pts with
  | nil => simp [serializeVerts]
  | cons p rest ih =>
      rw [serializeVerts]
      rcases hv with h | h <;> subst h <;> simp [ih] <;> omega

theorem fanFrom_three_length (k m : Nat) : (fanFrom 3 k m).length = 3 * m := by
  induction m generalizing k with
  | zero => rfl
  | succ m ih =>
      rw [fanFrom]
      simp [ih]
      omega

theorem fanFrom_three_mem (x : Int) (k m : Nat) (hx : x ∈ fanFrom 3 k m) :
    0 ≤ x ∧ x < (k : Int) + m + 2 := by
  induction m generalizing k with
  | zero => simp [fanFrom] at hx
  | succ m ih =>
      rw [fanFrom] at hx
      simp at hx
      rcases hx with h | h | h | h
      · subst h; constructor <;> [skip; push_cast] <;> omega
      · subst h; constructor <;> push_cast <;> omega
      · subst h; constructor <;> push_cast <;> omega
      · have := ih (k + 1) h
        constructor
        · exact this.1
        · have h2 := this.2
          push_cast at h2 ⊢
          omega

theorem fanFrom_three_getD (j : Nat) :
    ∀ k m : Nat, j < m →
      (fanFrom 3 k m).getD (3 * j) 0 = 0 ∧
      (fanFrom 3 k m).getD (3 * j + 1) 0 = (k : Int) + j + 1 ∧
      (fanFrom 3 k m).getD (3 * j + 2) 0 = (k : Int) + j + 2 := by
  induction j with
  | zero =>
      intro k m hm
      match m, hm with
      | m + 1, _ =>
          rw [fanFrom]
          refine ⟨rfl, ?_, ?_⟩ <;> simp
  | succ j ih =>
      intro k m hm
      match m, hm with
      | m + 1, hm =>
          rw [fanFrom]
          have hr : ((3 : Int).toNat - 3) = 0 := rfl
          rw [hr, List.replicate_zero, List.append_nil]
          have hj : j < m := by omega
          have h0 := (ih (k + 1) m hj).1
          have h1 := (ih (k + 1) m hj).2.1
          have h2 := (ih (k + 1) m hj).2.2
          have e0 : 3 * (j + 1) = 3 * j + 1 + 1 + 1 := by ring
          have e1 : 3 * (j + 1) + 1 = 3 * j + 1 + 1 + 1 + 1 := by ring
          have e2 : 3 * (j + 1) + 2 = 3 * j + 2 + 1 + 1 + 1 := by ring
          refine ⟨?_, ?_, ?_⟩
          · rw [e0]
            simp only [List.cons_append, List.nil_append, List.getD_cons_succ]
            exact h0
          · rw [e1]
            simp only [List.cons_append, List.nil_append, List.getD_cons_succ]
            rw [h1]
            push_cast
            ring
          · rw [e2]
            simp only [List.cons_append, List.nil_append, List.getD_cons_succ]
            rw [h2]
            push_cast
            ring

theorem delete_eq_none (t : Tessellator R) : t.Delete = (⟨none⟩ : Tessellator R) := by
  cases t with
  | mk o => cases o <;> rfl

/-! ## Claim theorems -/

/-- C7: Delete is idempotent: for every Tessellator, after a first call to
Delete, any further call to Delete is a no-op that does not crash and
leaves the instance in the same deleted state; Delete composed with Delete
is observationally equal to a single Delete. -/
theorem delete_idempotent (t : Tessellator R) :
    t.Delete.Delete = t.Delete ∧ t.Delete.tess = none := by
  rw [delete_eq_none t, delete_eq_none (⟨none⟩ : Tessellator R)]
  exact ⟨rfl, rfl⟩

/-- C3: after Delete, every subsequent operation fails without crashing:
AddContour, SetOption and Tessellate return a non-nil error, Tessellate
additionally returns nil vertex and index slices, the getters return zero
or nil, and the status reported for the instance is InvalidInput. -/
theorem use_after_delete_fails (t : Tessellator R) (size : Int) (vertices : List R)
    (opt : Int) (enabled : Bool) (rule : WindingRule) (elemType polySize vertexSize : Int)
    (normal : Option (List R)) :
    (t.Delete.AddContour size vertices).2 = some GoErr.nilOrDeleted ∧
    (t.Delete.SetOption opt enabled).2 = some GoErr.nilOrDeleted ∧
    t.Delete.Tessellate rule elemType polySize vertexSize normal
      = (t.Delete, none, none, some GoErr.nilOrDeleted) ∧
    t.Delete.getVertexCount = 0 ∧
    t.Delete.getVertices vertexSize = none ∧
    t.Delete.getVertexIndices = none ∧
    t.Delete.getElementCount = 0 ∧
    t.Delete.GetElementCount = 0 ∧
    t.Delete.GetElements = none ∧
    t.Delete.getElementsWithSize elemType polySize = none ∧
    t.Delete.getStatus = Status.invalidInput := by
  rw [delete_eq_none t]
  exact ⟨rfl, rfl, rfl, rfl, rfl, rfl, rfl, rfl, rfl, rfl, rfl⟩

/-- C10: on a live (non-deleted) tessellator, SetOption returns nil for
every option value (including option codes outside the two defined ones)
and every enabled flag, because the wrapper performs no validation of the
option argument; the only failing case is a nil or deleted instance. -/
theorem setoption_never_fails_live (c : CTess R) (opt : Int) (enabled : Bool) :
    ((⟨some c⟩ : Tessellator R).SetOption opt enabled).2 = none ∧
    ((⟨none⟩ : Tessellator R).SetOption opt enabled).2 = some GoErr.nilOrDeleted :=
  ⟨rfl, rfl⟩

theorem addContour_stores (c : CTess R) (hok : c.status = Status.ok) (size : Int)
    (vertices : List R) (k : Nat) (hk : 1 ≤ k)
    (hlen : (vertices.length : Int) = (k : Int) * size) (hs : size = 2 ∨ size = 3) :
    (⟨some c⟩ : Tessellator R).AddContour size vertices
      = (⟨some { c with contours := c.contours ++ [(size.toNat, vertices)] }⟩, none) := by
  have h2 : ¬(size ≠ 2 ∧ size ≠ 3) := by rcases hs with h | h <;> simp [h]
  have hpos : (0 : Int) < size := by rcases hs with h | h <;> simp [h]
  have hklen : ¬((vertices.length : Int) < size) := by rw [hlen]; nlinarith
  have hmod : ¬((vertices.length : Int) % size ≠ 0) := by rw [hlen]; simp [Int.mul_emod_left]
  have hdiv : ¬(vertices.length / size.toNat = 0) := by
    rcases hs with h | h <;> subst h <;>
      [rw [show ((2:Int).toNat) = 2 from rfl]; rw [show ((3:Int).toNat) = 3 from rfl]] <;>
      omega
  rw [Tessellator.AddContour]
  simp only [if_neg h2, if_neg hklen, if_neg hmod]
  rw [tessAddContour]
  simp only [if_neg hdiv]
  simp [Tessellator.getStatus, hok]

/-- C4: AddContour on a live tessellator (with engine status OK) rejects a
coordinate width outside 2 and 3 and an empty vertex sequence with a
non-nil error, storing no contour; for width 2 or 3 and a nonempty flat
sequence of width-tuples it returns nil and stores the contour.  No
geometric property of the contour (self-intersection, orientation) is
inspected, so such contours are not rejected. -/
theorem addcontour_validation (c : CTess R) (hok : c.status = Status.ok)
    (size : Int) (vertices : List R) :
    (((size ≠ 2 ∧ size ≠ 3) ∨ vertices = []) →
      ((⟨some c⟩ : Tessellator R).AddContour size vertices).2 ≠ none ∧
      ((⟨some c⟩ : Tessellator R).AddContour size vertices).1 = ⟨some c⟩) ∧
    (∀ k : Nat, 1 ≤ k → (vertices.length : Int) = (k : Int) * size → (size = 2 ∨ size = 3) →
      (⟨some c⟩ : Tessellator R).AddContour size vertices
        = (⟨some { c with contours := c.contours ++ [(size.toNat, vertices)] }⟩, none)) := by
  constructor
  · rintro (⟨h2, h3⟩ | he)
    · rw [Tessellator.AddContour]
      simp only [if_pos (And.intro h2 h3)]
      exact ⟨by simp, trivial⟩
    · subst he
      rw [Tessellator.AddContour]
      by_cases hs : size ≠ 2 ∧ size ≠ 3
      · simp only [if_pos hs]
        exact ⟨by simp, trivial⟩
      · simp only [if_neg hs]
        push_neg at hs
        have hpos : (0 : Int) < size := by
          rcases Decidable.em (size = 2) with h | h
          · omega
          · have := hs h; omega
        simp only [List.length_nil, Nat.cast_zero, if_pos hpos]
        exact ⟨by simp, trivial⟩
  · intro k hk hlen hs
    exact addContour_stores c hok size vertices k hk hlen hs

/-- C4 witness: a unit square with width 2 is accepted and stored by a
fresh tessellator. -/
theorem addcontour_validation_witness :
    (⟨some (tessNewTess : CTess ℤ)⟩ : Tessellator ℤ).AddContour 2 [0, 0, 1, 0, 1, 1, 0, 1]
      = (⟨some { (tessNewTess : CTess ℤ) with contours := [(2, [0, 0, 1, 0, 1, 1, 0, 1])] }⟩,
         none) := by
  have h := (addcontour_validation (tessNewTess : CTess ℤ) rfl 2
    [0, 0, 1, 0, 1, 1, 0, 1]).2 4 (by decide) (by decide) (Or.inl rfl)
  simpa [tessNewTess] using h

/-! ## Composition lemmas for Tessellate -/

theorem internalTessellate_run (c : CTess R) (rule : WindingRule) (et ps vsz : Int)
    (hv : vsz = 2 ∨ vsz = 3) (nrm : Option (List R))
    (hn : ∀ l, nrm = some l → 3 ≤ l.length) :
    (⟨some c⟩ : Tessellator R).internalTessellate rule et ps vsz nrm =
      ((⟨some (tessTesselate c rule et ps vsz
          (nrm.map fun l => (l.getD 0 0, l.getD 1 0, l.getD 2 0))).1⟩ : Tessellator R),
       if (tessTesselate c rule et ps vsz
          (nrm.map fun l => (l.getD 0 0, l.getD 1 0, l.getD 2 0))).2 = false then
         some (GoErr.tessFailed (tessTesselate c rule et ps vsz
          (nrm.map fun l => (l.getD 0 0, l.getD 1 0, l.getD 2 0))).1.status)
       else none) := by
  have h2 : ¬(vsz ≠ 2 ∧ vsz ≠ 3) := by rcases hv with h | h <;> simp [h]
  rw [Tessellator.internalTessellate]
  cases nrm with
  | none =>
      simp only [if_neg h2, Option.map_none']
      split <;> simp [Tessellator.getStatus]
  | some l =>
      have h3 := hn l rfl
      have h3b : ¬((l.length : Int) < 3) := by omega
      simp only [if_neg h2, if_neg h3b, Option.map_some']
      split <;> simp [Tessellator.getStatus]

theorem tessellate_internal_err (t : Tessellator R) (c0 : CTess R) (ht : t.tess = some c0)
    (rule : WindingRule) (et ps vsz : Int) (nrm : Option (List R))
    (t1 : Tessellator R) (e : GoErr)
    (hint : t.internalTessellate rule et ps vsz nrm = (t1, some e)) :
    t.Tessellate rule et ps vsz nrm = (t1, none, none, some e) := by
  rw [Tessellator.Tessellate, ht, hint]

theorem tessellate_internal_ok (t : Tessellator R) (c0 c2 : CTess R) (ht : t.tess = some c0)
    (rule : WindingRule) (et ps vsz : Int) (nrm : Option (List R))
    (hint : t.internalTessellate rule et ps vsz nrm = (⟨some c2⟩, none)) :
    (t.Tessellate rule et ps vsz nrm).1 = (⟨some c2⟩ : Tessellator R) ∧
    ∀ e, (t.Tessellate rule et ps vsz nrm).2.2.2 = some e →
      (∃ s, e = GoErr.failedGetVertices s) ∨ (∃ s, e = GoErr.failedGetElements s) ∨
        e = GoErr.unsupportedElementType et := by
  refine ⟨?_, ?_⟩
  · rw [Tessellator.Tessellate, ht, hint]
    simp only []
    repeat' split
    all_goals rfl
  · rw [Tessellator.Tessellate, ht, hint]
    simp only []
    repeat' split
    all_goals
      intro e he
      first
        | (injection he with h1; subst h1; exact Or.inl ⟨_, rfl⟩)
        | (injection he with h1; subst h1; exact Or.inr (Or.inl ⟨_, rfl⟩))
        | (injection he with h1; subst h1; exact Or.inr (Or.inr rfl))
        | cases he

theorem tessTesselate_lastNormal (c : CTess R) (rule : WindingRule) (et ps vsz : Int)
    (nv : Option (R × R × R)) :
    (tessTesselate c rule et ps vsz nv).1.lastNormal = nv := by
  rw [tessTesselate]
  repeat' split
  all_goals first | rfl | (simp only []; split <;> rfl)

/-- C6: a supplied normal with fewer than 3 components makes Tessellate
return a non-nil error without invoking the tessellation (the state is
unchanged); a normal with at least 3 components is accepted and exactly its
first three components are the normal handed to the engine. -/
theorem normal_validation (c : CTess R) (rule : WindingRule)
    (elemType polySize vertexSize : Int) (hv : vertexSize = 2 ∨ vertexSize = 3) (l : List R) :
    (l.length < 3 →
      (⟨some c⟩ : Tessellator R).Tessellate rule elemType polySize vertexSize (some l)
        = (⟨some c⟩, none, none, some (GoErr.badNormal l.length))) ∧
    (3 ≤ l.length →
      ∃ c1 : CTess R,
        ((⟨some c⟩ : Tessellator R).Tessellate rule elemType polySize vertexSize (some l)).1
          = (⟨some c1⟩ : Tessellator R) ∧
        c1.lastNormal = some (l.getD 0 0, l.getD 1 0, l.getD 2 0) ∧
        ∀ m : Int,
          ((⟨some c⟩ : Tessellator R).Tessellate rule elemType polySize vertexSize
            (some l)).2.2.2 ≠ some (GoErr.badNormal m)) := by
  have h2 : ¬(vertexSize ≠ 2 ∧ vertexSize ≠ 3) := by rcases hv with h | h <;> simp [h]
  constructor
  · intro hlt
    have hint : (⟨some c⟩ : Tessellator R).internalTessellate rule elemType polySize
        vertexSize (some l) = ((⟨some c⟩ : Tessellator R), some (GoErr.badNormal l.length)) := by
      rw [Tessellator.internalTessellate]
      have hlt2 : ((l.length : Int) < 3) := by exact_mod_cast hlt
      simp only [if_neg h2, if_pos hlt2]
    exact tessellate_internal_err _ c rfl _ _ _ _ _ _ _ hint
  · intro hge
    have hrun := internalTessellate_run c rule elemType polySize vertexSize hv (some l)
      (by intro l' hl'; cases hl'; exact hge)
    simp only [Option.map_some'] at hrun
    by_cases hflag : (tessTesselate c rule elemType polySize vertexSize
        (some (l.getD 0 0, l.getD 1 0, l.getD 2 0))).2 = false
    · rw [if_pos hflag] at hrun
      have hres := tessellate_internal_err _ c rfl _ _ _ _ _ _ _ hrun
      refine ⟨(tessTesselate c rule elemType polySize vertexSize
        (some (l.getD 0 0, l.getD 1 0, l.getD 2 0))).1, ?_, ?_, ?_⟩
      · rw [hres]
      · exact tessTesselate_lastNormal c rule elemType polySize vertexSize _
      · intro m
        rw [hres]
        simp
    · rw [if_neg hflag] at hrun
      have hres := tessellate_internal_ok _ c _ rfl _ _ _ _ _ hrun
      refine ⟨(tessTesselate c rule elemType polySize vertexSize
        (some (l.getD 0 0, l.getD 1 0, l.getD 2 0))).1, hres.1, ?_, ?_⟩
      · exact tessTesselate_lastNormal c rule elemType polySize vertexSize _
      · intro m hm
        rcases hres.2 _ hm with ⟨s, hs⟩ | ⟨s, hs⟩ | hs <;> simp at hs

/-- C6 witness: a length-4 normal on a fresh tessellator is accepted with
exactly its first three components handed to the engine. -/
theorem normal_validation_witness :
    ∃ c1 : CTess ℤ,
      ((⟨some (tessNewTess : CTess ℤ)⟩ : Tessellator ℤ).Tessellate WindingRule.odd 0 3 2
          (some [1, 2, 3, 4])).1 = (⟨some c1⟩ : Tessellator ℤ) ∧
      c1.lastNormal = some (1, 2, 3) := by
  obtain ⟨c1, h1, h2, _⟩ := (normal_validation (tessNewTess : CTess ℤ) WindingRule.odd
    0 3 2 (Or.inl rfl) [1, 2, 3, 4]).2 (by decide)
  exact ⟨c1, h1, by simpa using h2⟩

/-- C5: a Tessellate call with vertexSize outside 2 and 3 or polySize below
3 returns a non-nil error with nil slices, and commits no partial state:
the stored contours and the two options are unchanged by the failed call. -/
theorem malformed_tessellate_rejected (c : CTess R) (rule : WindingRule)
    (elemType polySize vertexSize : Int) (normal : Option (List R))
    (h : (vertexSize ≠ 2 ∧ vertexSize ≠ 3) ∨ polySize < 3) :
    ((⟨some c⟩ : Tessellator R).Tessellate rule elemType polySize vertexSize normal).2.2.2
      ≠ none ∧
    ((⟨some c⟩ : Tessellator R).Tessellate rule elemType polySize vertexSize normal).2.1
      = none ∧
    ((⟨some c⟩ : Tessellator R).Tessellate rule elemType polySize vertexSize normal).2.2.1
      = none ∧
    ∃ c1 : CTess R,
      ((⟨some c⟩ : Tessellator R).Tessellate rule elemType polySize vertexSize normal).1
        = (⟨some c1⟩ : Tessellator R) ∧
      c1.contours = c.contours ∧ c1.constrainedDelaunay = c.constrainedDelaunay ∧
      c1.reverseContours = c.reverseContours := by
  by_cases hbad : vertexSize ≠ 2 ∧ vertexSize ≠ 3
  · have hint : (⟨some c⟩ : Tessellator R).internalTessellate rule elemType polySize
        vertexSize normal
        = ((⟨some c⟩ : Tessellator R), some (GoErr.badVertexSize vertexSize)) := by
      rw [Tessellator.internalTessellate]
      simp only [if_pos hbad]
    have hres := tessellate_internal_err _ c rfl _ _ _ _ _ _ _ hint
    rw [hres]
    exact ⟨by simp, rfl, rfl, c, rfl, rfl, rfl, rfl⟩
  · have hps : polySize < 3 := by
      rcases h with hh | hh
      · exact absurd hh hbad
      · exact hh
    have hv : vertexSize = 2 ∨ vertexSize = 3 := by
      by_cases h2 : vertexSize = 2
      · exact Or.inl h2
      · push_neg at hbad
        exact Or.inr (hbad h2)
    by_cases hnorm : ∀ l, normal = some l → 3 ≤ l.length
    · have hrun := internalTessellate_run c rule elemType polySize vertexSize hv normal hnorm
      have hengine : tessTesselate c rule elemType polySize vertexSize
          (normal.map fun l => (l.getD 0 0, l.getD 1 0, l.getD 2 0))
          = ({ c with
                status := Status.invalidInput
                lastNormal := normal.map (fun l => (l.getD 0 0, l.getD 1 0, l.getD 2 0)) },
             false) := by
        rw [tessTesselate]
        simp only [if_pos hps]
      rw [hengine] at hrun
      simp only [if_pos] at hrun
      have hres := tessellate_internal_err _ c rfl _ _ _ _ _ _ _ hrun
      rw [hres]
      exact ⟨by simp, rfl, rfl, _, rfl, rfl, rfl, rfl⟩
    · push_neg at hnorm
      obtain ⟨l, hl, hlen⟩ := hnorm
      subst hl
      have hlt : (l.length : Int) < 3 := by exact_mod_cast hlen
      have hint : (⟨some c⟩ : Tessellator R).internalTessellate rule elemType polySize
          vertexSize (some l)
          = ((⟨some c⟩ : Tessellator R), some (GoErr.badNormal l.length)) := by
        rw [Tessellator.internalTessellate]
        simp only [if_neg hbad, if_pos hlt]
      have hres := tessellate_internal_err _ c rfl _ _ _ _ _ _ _ hint
      rw [hres]
      exact ⟨by simp, rfl, rfl, c, rfl, rfl, rfl, rfl⟩

/-- C5 witness: a fresh tessellator rejects polySize 2. -/
theorem malformed_tessellate_rejected_witness :
    ((⟨some (tessNewTess : CTess ℤ)⟩ : Tessellator ℤ).Tessellate WindingRule.odd 0 2 2
      none).2.2.2 ≠ none :=
  (malformed_tessellate_rejected (tessNewTess : CTess ℤ) WindingRule.odd 0 2 2 none
    (Or.inr (by decide))).1

/-- Modelled from the spec: the number of index slots the native element
buffer actually holds after a run, by element type (§4.7): `polySize` slots
per element for `Polygons` (also the default layout), twice that for
`ConnectedPolygons`, and a 2-slot `(start, count)` pair per boundary loop
for `BoundaryContours`. -/
def actualElementArraySize (elemType polySize : Int) (count : Nat) : Int :=
  if elemType = ElementConnectedPolygons then (count : Int) * polySize * 2
  else if elemType = ElementBoundaryContours then (count : Int) * 2
  else (count : Int) * polySize

/-- C8: on a live tessellator whose last run produced a positive element
count, the public GetElements returns exactly 3 * GetElementCount() values
regardless of the element type and polygon size of the preceding run, so
for ConnectedPolygons, BoundaryContours, or a polygon size above 3 its
length differs from the actual element buffer layout; GetElementsWithSize
reads exactly the actual layout size. -/
theorem getelements_assumes_triangles (c : CTess R) (buf : List Int)
    (hc : 0 < c.outElementCount) (hb : c.outElements = some buf) (elemType polySize : Int) :
    ∃ es, (⟨some c⟩ : Tessellator R).GetElements = some es ∧
      es.length = 3 * (⟨some c⟩ : Tessellator R).GetElementCount ∧
      ((elemType = ElementConnectedPolygons ∨ elemType = ElementBoundaryContours ∨
          3 < polySize) →
        (es.length : Int) ≠ actualElementArraySize elemType polySize c.outElementCount) ∧
      (0 ≤ actualElementArraySize elemType polySize c.outElementCount →
        ∃ es2, (⟨some c⟩ : Tessellator R).getElementsWithSize elemType polySize = some es2 ∧
          (es2.length : Int) = actualElementArraySize elemType polySize c.outElementCount) := by
  have hne : ¬(c.outElementCount = 0) := by omega
  refine ⟨readBuf 0 buf (c.outElementCount * 3), ?_, ?_, ?_, ?_⟩
  · rw [Tessellator.GetElements]
    simp only [if_neg hne, hb]
  · rw [Tessellator.GetElementCount, readBuf_length]
    exact Nat.mul_comm _ _
  · intro hcase
    rw [readBuf_length]
    rcases hcase with h | h | h
    · subst h
      rw [actualElementArraySize, if_pos rfl]
      intro heq
      have h2 : (c.outElementCount : Int) * (polySize * 2) = (c.outElementCount : Int) * 3 := by
        push_cast at heq ⊢
        linarith
      have h3 : polySize * 2 = 3 := by
        have hcc : (c.outElementCount : Int) ≠ 0 := by
          exact_mod_cast hne
        exact mul_left_cancel₀ hcc h2
      omega
    · subst h
      rw [actualElementArraySize]
      rw [if_neg (by rw [ElementBoundaryContours, ElementConnectedPolygons]; omega), if_pos rfl]
      intro heq
      push_cast at heq
      omega
    · rw [actualElementArraySize]
      by_cases h1 : elemType = ElementConnectedPolygons
      · rw [if_pos h1]
        intro heq
        have h2 : (c.outElementCount : Int) * (polySize * 2) = (c.outElementCount : Int) * 3 := by
          push_cast at heq ⊢
          linarith
        have hcc : (c.outElementCount : Int) ≠ 0 := by exact_mod_cast hne
        have h3 : polySize * 2 = 3 := mul_left_cancel₀ hcc h2
        omega
      · rw [if_neg h1]
        by_cases h2 : elemType = ElementBoundaryContours
        · rw [if_pos h2]
          intro heq
          push_cast at heq
          omega
        · rw [if_neg h2]
          intro heq
          have h3 : (c.outElementCount : Int) * polySize = (c.outElementCount : Int) * 3 := by
            push_cast at heq ⊢
            linarith
          have hcc : (c.outElementCount : Int) ≠ 0 := by exact_mod_cast hne
          have h4 : polySize = 3 := mul_left_cancel₀ hcc h3
          omega
  · intro hpos
    refine ⟨readBuf 0 buf (actualElementArraySize elemType polySize c.outElementCount).toNat,
      ?_, ?_⟩
    · rw [Tessellator.getElementsWithSize]
      simp only [if_neg hne, hb]
      rw [actualElementArraySize]
      by_cases h1 : elemType = ElementConnectedPolygons
      · have hnp : elemType ≠ ElementPolygons := by
          rw [h1, ElementConnectedPolygons, ElementPolygons]; omega
        simp only [if_neg hnp, if_pos h1]
      · by_cases h2 : elemType = ElementBoundaryContours
        · have hnp : elemType ≠ ElementPolygons := by
            rw [h2, ElementBoundaryContours, ElementPolygons]; omega
          simp only [if_neg hnp, if_neg h1, if_pos h2]
        · by_cases h0 : elemType = ElementPolygons
          · simp only [if_pos h0, if_neg h1, if_neg h2]
          · simp only [if_neg h0, if_neg h1, if_neg h2]
    · rw [readBuf_length]
      exact Int.toNat_of_nonneg hpos

/-- C8 witness: after a run with 2 triangles, GetElements returns 6 values,
which is not the boundary-contours layout of 4 values. -/
theorem getelements_assumes_triangles_witness :
    ∃ es, (⟨some ({ tessNewTess with
        outElements := some [0, 1, 2, 0, 2, 3]
        outElementCount := 2 } : CTess ℤ)⟩ : Tessellator ℤ).GetElements = some es ∧
      es.length = 3 * (⟨some ({ tessNewTess with
        outElements := some [0, 1, 2, 0, 2, 3]
        outElementCount := 2 } : CTess ℤ)⟩ : Tessellator ℤ).GetElementCount ∧
      ((2 : Int) = ElementConnectedPolygons ∨ (2 : Int) = ElementBoundaryContours ∨
          3 < (3 : Int) →
        (es.length : Int) ≠ actualElementArraySize 2 3 2) ∧
      (0 ≤ actualElementArraySize 2 3 2 →
        ∃ es2, (⟨some ({ tessNewTess with
            outElements := some [0, 1, 2, 0, 2, 3]
            outElementCount := 2 } : CTess ℤ)⟩ : Tessellator ℤ).getElementsWithSize 2 3
              = some es2 ∧
          (es2.length : Int) = actualElementArraySize 2 3 2) := by
  exact getelements_assumes_triangles _ [0, 1, 2, 0, 2, 3] (by decide) rfl 2 3

theorem tessTesselate_single_simple (c : CTess R) (coords : List R)
    (hc : c.contours = [(2, coords)]) (rule : WindingRule) (et ps vsz : Int)
    (nv : Option (R × R × R)) (hps : ¬ ps < 3)
    (hcond : 3 ≤ (toPoints coords).length ∧ isSimpleContour (toPoints coords) = true ∧
      (rule = WindingRule.odd ∨ rule = WindingRule.nonzero)) :
    tessTesselate c rule et ps vsz nv =
      ({ c with
          contours := []
          status := Status.ok
          outVertices := some (serializeVerts vsz (toPoints coords))
          outVertexCount := (toPoints coords).length
          outElements := some (elementsForSimple et ps (toPoints coords).length).1
          outElementCount := (elementsForSimple et ps (toPoints coords).length).2
          lastNormal := nv }, true) := by
  rw [tessTesselate, if_neg hps, hc]
  simp only []
  rw [if_pos hcond]

theorem tessTesselate_empty_out (c : CTess R) (rule : WindingRule) (et ps vsz : Int)
    (nv : Option (R × R × R)) (hps : ¬ ps < 3)
    (h : ∀ coords, c.contours = [(2, coords)] →
        ¬(3 ≤ (toPoints coords).length ∧ isSimpleContour (toPoints coords) = true ∧
          (rule = WindingRule.odd ∨ rule = WindingRule.nonzero))) :
    tessTesselate c rule et ps vsz nv =
      ({ c with
          contours := []
          status := Status.ok
          outVertices := none
          outVertexCount := 0
          outElements := none
          outElementCount := 0
          lastNormal := nv }, true) := by
  rw [tessTesselate, if_neg hps]
  split
  · rename_i coords heq
    rw [if_neg (h coords heq)]
  · rfl

theorem tessellate_success_poly (t : Tessellator R) (c0 c2 : CTess R)
    (ht : t.tess = some c0) (rule : WindingRule) (et ps vsz : Int) (nrm : Option (List R))
    (hint : t.internalTessellate rule et ps vsz nrm = (⟨some c2⟩, none))
    (hok : c2.status = Status.ok)
    (hq : et = ElementPolygons ∨ et = ElementConnectedPolygons ∨ et = ElementBoundaryContours) :
    t.Tessellate rule et ps vsz nrm
      = (⟨some c2⟩,
         some ((Tessellator.getVertices ⟨some c2⟩ vsz).getD []),
         some ((Tessellator.getElementsWithSize ⟨some c2⟩ et ps).getD []),
         none) := by
  have hst : ¬(Tessellator.getStatus (⟨some c2⟩ : Tessellator R) ≠ Status.ok) := by
    simp [Tessellator.getStatus, hok]
  rw [Tessellator.Tessellate, ht, hint]
  simp only []
  cases hgv : Tessellator.getVertices (⟨some c2⟩ : Tessellator R) vsz <;>
    cases hge : Tessellator.getElementsWithSize (⟨some c2⟩ : Tessellator R) et ps <;>
    simp only [hgv, hge, if_pos hq, if_neg hst, Option.getD_some, Option.getD_none]

theorem elementsForSimple_poly (ps : Int) (m : Nat) :
    elementsForSimple ElementPolygons ps m = (fanFrom ps 0 (m - 2), m - 2) := by
  rw [elementsForSimple]
  norm_num [ElementPolygons, ElementConnectedPolygons, ElementBoundaryContours]

/-- C1: for every simple single width-2 contour with N at least 3 vertices
submitted via AddContour to a fresh tessellator, Tessellate with winding
rule Odd or NonZero, element type Polygons, polySize 3 and vertexSize 2
succeeds and returns exactly N output vertices (a flat slice of N*2
coordinates) and exactly N-2 triangles (3*(N-2) indices). -/
theorem simple_contour_triangulation (coords : List R) (n : Nat)
    (hlen : coords.length = 2 * n) (h3 : 3 ≤ n)
    (hsimple : isSimpleContour (toPoints coords) = true)
    (rule : WindingRule) (hrule : rule = WindingRule.odd ∨ rule = WindingRule.nonzero) :
    ∃ t1 t2 vs es,
      (NewTessellator : Tessellator R).AddContour 2 coords = (t1, none) ∧
      t1.Tessellate rule ElementPolygons 3 2 none = (t2, some vs, some es, none) ∧
      vs.length = 2 * n ∧ es.length = 3 * (n - 2) ∧
      t2.getVertexCount = n ∧ t2.getElementCount = n - 2 := by
  have hpts : (toPoints coords).length = n := by rw [toPoints_length]; omega
  have hadd := addContour_stores (tessNewTess : CTess R) rfl 2 coords n (by omega)
    (by omega) (Or.inl rfl)
  set c1 : CTess R :=
    { tessNewTess with contours := tessNewTess.contours ++ [((2:Int).toNat, coords)] }
    with hc1def
  have hc1c : c1.contours = [(2, coords)] := rfl
  have hcond : 3 ≤ (toPoints coords).length ∧ isSimpleContour (toPoints coords) = true ∧
      (rule = WindingRule.odd ∨ rule = WindingRule.nonzero) := ⟨by omega, hsimple, hrule⟩
  have hengine := tessTesselate_single_simple c1 coords hc1c rule ElementPolygons 3 2 none
    (by omega) hcond
  set r : CTess R × Bool := tessTesselate c1 rule ElementPolygons 3 2 none with hrdef
  have hflag : r.2 = true := by rw [hengine]
  have hok : r.1.status = Status.ok := by rw [hengine]
  have hcnt : r.1.outVertexCount = (toPoints coords).length := by rw [hengine]
  have hbufv : r.1.outVertices = some (serializeVerts 2 (toPoints coords)) := by rw [hengine]
  have hbufe : r.1.outElements = some (fanFrom 3 0 ((toPoints coords).length - 2)) := by
    rw [hengine]
    simp [elementsForSimple_poly]
  have hecnt : r.1.outElementCount = (toPoints coords).length - 2 := by
    rw [hengine]
    simp [elementsForSimple_poly]
  have hrun := internalTessellate_run c1 rule ElementPolygons 3 2 (Or.inl rfl) none
    (by intro l hl; cases hl)
  simp only [Option.map_none', ← hrdef] at hrun
  rw [if_neg (by rw [hflag]; simp)] at hrun
  have hne : ¬(r.1.outVertexCount = 0) := by rw [hcnt]; omega
  have hgv : Tessellator.getVertices (⟨some r.1⟩ : Tessellator R) 2
      = some (readBuf 0 (serializeVerts 2 (toPoints coords))
          (r.1.outVertexCount * (2 : Int).toNat)) := by
    rw [Tessellator.getVertices]
    simp only [if_neg hne, hbufv]
  have hcne : ¬(r.1.outElementCount = 0) := by rw [hecnt]; omega
  have hge : Tessellator.getElementsWithSize (⟨some r.1⟩ : Tessellator R) ElementPolygons 3
      = some (fanFrom 3 0 ((toPoints coords).length - 2)) := by
    rw [Tessellator.getElementsWithSize]
    simp only [if_neg hcne, hbufe, if_true]
    have ht1 : ((r.1.outElementCount : Int) * 3).toNat = r.1.outElementCount * 3 := by omega
    rw [ht1, hecnt]
    have hfull : ((toPoints coords).length - 2) * 3
        = (fanFrom 3 0 ((toPoints coords).length - 2)).length := by
      rw [fanFrom_three_length]; ring
    rw [hfull, readBuf_full]
  have hT := tessellate_success_poly (⟨some c1⟩ : Tessellator R) c1 r.1 rfl rule
    ElementPolygons 3 2 none hrun hok (Or.inl rfl)
  rw [hgv, hge] at hT
  simp only [Option.getD_some] at hT
  refine ⟨⟨some c1⟩, ⟨some r.1⟩, _, _, hadd, hT, ?_, ?_, ?_, ?_⟩
  · rw [readBuf_length, hcnt, hpts, show ((2:Int).toNat) = 2 from rfl]
    omega
  · rw [fanFrom_three_length, hpts]
  · show r.1.outVertexCount = n
    rw [hcnt, hpts]
  · show r.1.outElementCount = n - 2
    rw [hecnt, hpts]

/-- C1 witness: the unit square yields 4 vertices (8 coordinates) and
2 triangles (6 indices); its simplicity is checked by evaluation. -/
theorem simple_contour_triangulation_witness :
    ∃ t1 t2 vs es,
      (NewTessellator : Tessellator ℤ).AddContour 2 [0, 0, 1, 0, 1, 1, 0, 1] = (t1, none) ∧
      t1.Tessellate WindingRule.odd ElementPolygons 3 2 none = (t2, some vs, some es, none) ∧
      vs.length = 2 * 4 ∧ es.length = 3 * (4 - 2) ∧
      t2.getVertexCount = 4 ∧ t2.getElementCount = 4 - 2 :=
  simple_contour_triangulation [0, 0, 1, 0, 1, 1, 0, 1] 4 (by decide) (by decide) (by decide)
    WindingRule.odd (Or.inl rfl)

theorem tessellate_poly3_cases (t t2 : Tessellator R) (rule : WindingRule) (vsz : Int)
    (hv : vsz = 2 ∨ vsz = 3) (nrm : Option (List R)) (vs : List R) (es : List Int)
    (h : t.Tessellate rule ElementPolygons 3 vsz nrm = (t2, some vs, some es, none)) :
    (vs = [] ∧ es = []) ∨
    ∃ m : Nat, 3 ≤ m ∧ vs.length = m * vsz.toNat ∧ es = fanFrom 3 0 (m - 2) := by
  have h2v : ¬(vsz ≠ 2 ∧ vsz ≠ 3) := by rcases hv with hh | hh <;> simp [hh]
  rcases t with ⟨_ | c⟩
  · rw [Tessellator.Tessellate] at h
    simp at h
  by_cases hnrm : ∀ l, nrm = some l → 3 ≤ l.length
  case neg =>
    push_neg at hnrm
    obtain ⟨l, hl, hlen⟩ := hnrm
    subst hl
    have hlt : (l.length : Int) < 3 := by exact_mod_cast hlen
    have hint : (⟨some c⟩ : Tessellator R).internalTessellate rule ElementPolygons 3 vsz
        (some l) = ((⟨some c⟩ : Tessellator R), some (GoErr.badNormal l.length)) := by
      rw [Tessellator.internalTessellate]
      simp only [if_neg h2v, if_pos hlt]
    rw [tessellate_internal_err _ c rfl _ _ _ _ _ _ _ hint] at h
    simp at h
  case pos =>
  have hrun := internalTessellate_run c rule ElementPolygons 3 vsz hv nrm hnrm
  set nv : Option (R × R × R) := nrm.map (fun l => (l.getD 0 0, l.getD 1 0, l.getD 2 0))
    with hnv
  set r : CTess R × Bool := tessTesselate c rule ElementPolygons 3 vsz nv with hrdef
  by_cases hfan : ∃ coords, c.contours = [(2, coords)] ∧
      (3 ≤ (toPoints coords).length ∧ isSimpleContour (toPoints coords) = true ∧
        (rule = WindingRule.odd ∨ rule = WindingRule.nonzero))
  · obtain ⟨coords, hcc, hcond⟩ := hfan
    have hengine : r = _ := tessTesselate_single_simple c coords hcc rule ElementPolygons 3
      vsz nv (by omega) hcond
    have hflag : r.2 = true := by rw [hengine]
    have hok : r.1.status = Status.ok := by rw [hengine]
    have hcnt : r.1.outVertexCount = (toPoints coords).length := by rw [hengine]
    have hbufv : r.1.outVertices = some (serializeVerts vsz (toPoints coords)) := by
      rw [hengine]
    have hbufe : r.1.outElements = some (fanFrom 3 0 ((toPoints coords).length - 2)) := by
      rw [hengine]
      simp [elementsForSimple_poly]
    have hecnt : r.1.outElementCount = (toPoints coords).length - 2 := by
      rw [hengine]
      simp [elementsForSimple_poly]
    rw [if_neg (by rw [hflag]; simp)] at hrun
    have hne : ¬(r.1.outVertexCount = 0) := by rw [hcnt]; omega
    have hgv : Tessellator.getVertices (⟨some r.1⟩ : Tessellator R) vsz
        = some (readBuf 0 (serializeVerts vsz (toPoints coords))
            (r.1.outVertexCount * vsz.toNat)) := by
      rw [Tessellator.getVertices]
      simp only [if_neg hne, hbufv]
    have hcne : ¬(r.1.outElementCount = 0) := by rw [hecnt]; omega
    have hge : Tessellator.getElementsWithSize (⟨some r.1⟩ : Tessellator R) ElementPolygons 3
        = some (fanFrom 3 0 ((toPoints coords).length - 2)) := by
      rw [Tessellator.getElementsWithSize]
      simp only [if_neg hcne, hbufe, if_true]
      have ht1 : ((r.1.outElementCount : Int) * 3).toNat = r.1.outElementCount * 3 := by omega
      rw [ht1, hecnt]
      have hfull : ((toPoints coords).length - 2) * 3
          = (fanFrom 3 0 ((toPoints coords).length - 2)).length := by
        rw [fanFrom_three_length]; ring
      rw [hfull, readBuf_full]
    have hT := tessellate_success_poly (⟨some c⟩ : Tessellator R) c r.1 rfl rule
      ElementPolygons 3 vsz nrm hrun hok (Or.inl rfl)
    rw [hgv, hge] at hT
    simp only [Option.getD_some] at hT
    rw [hT] at h
    right
    refine ⟨(toPoints coords).length, hcond.1, ?_, ?_⟩
    · have hvs : vs = readBuf 0 (serializeVerts vsz (toPoints coords))
          (r.1.outVertexCount * vsz.toNat) := by
        have := congrArg (fun q => q.2.1) h
        simpa using this.symm
      rw [hvs, readBuf_length, hcnt]
    · have hes : es = fanFrom 3 0 ((toPoints coords).length - 2) := by
        have := congrArg (fun q => q.2.2.1) h
        simpa using this.symm
      exact hes
  · have hengine : r = _ := tessTesselate_empty_out c rule ElementPolygons 3 vsz nv
      (by omega) (fun coords hc hcond => hfan ⟨coords, hc, hcond⟩)
    have hflag : r.2 = true := by rw [hengine]
    have hok : r.1.status = Status.ok := by rw [hengine]
    have hcnt : r.1.outVertexCount = 0 := by rw [hengine]
    have hecnt : r.1.outElementCount = 0 := by rw [hengine]
    rw [if_neg (by rw [hflag]; simp)] at hrun
    have hgv : Tessellator.getVertices (⟨some r.1⟩ : Tessellator R) vsz = none := by
      rw [Tessellator.getVertices]
      simp only [if_pos hcnt]
    have hge : Tessellator.getElementsWithSize (⟨some r.1⟩ : Tessellator R)
        ElementPolygons 3 = none := by
      rw [Tessellator.getElementsWithSize]
      simp only [if_pos hecnt]
    have hT := tessellate_success_poly (⟨some c⟩ : Tessellator R) c r.1 rfl rule
      ElementPolygons 3 vsz nrm hrun hok (Or.inl rfl)
    rw [hgv, hge] at hT
    simp only [Option.getD_none] at hT
    rw [hT] at h
    left
    have hvs : vs = [] := by
      have := congrArg (fun q => q.2.1) h
      simpa using this.symm
    have hes : es = [] := by
      have := congrArg (fun q => q.2.2.1) h
      simpa using this.symm
    exact ⟨hvs, hes⟩

/-- C2: for every successful Tessellate call with element type Polygons and
polySize 3, every returned index lies in the interval from 0 inclusive to
the returned vertex count exclusive, and no returned triangle has three
identical vertex indices. -/
theorem element_indices_valid (t t2 : Tessellator R) (rule : WindingRule) (vsz : Int)
    (hv : vsz = 2 ∨ vsz = 3) (nrm : Option (List R)) (vs : List R) (es : List Int)
    (h : t.Tessellate rule ElementPolygons 3 vsz nrm = (t2, some vs, some es, none)) :
    (∀ i ∈ es, 0 ≤ i ∧ i < ((vs.length / vsz.toNat : Nat) : Int)) ∧
    (∀ k : Nat, 3 * k + 2 < es.length →
      ¬(es.getD (3 * k) 0 = es.getD (3 * k + 1) 0 ∧
        es.getD (3 * k + 1) 0 = es.getD (3 * k + 2) 0)) := by
  rcases tessellate_poly3_cases t t2 rule vsz hv nrm vs es h with
    ⟨hvs, hes⟩ | ⟨m, hm, hlen, hes⟩
  · subst hes
    constructor
    · intro i hi
      simp at hi
    · intro k hk
      simp at hk
  · subst hes
    have hvcount : vs.length / vsz.toNat = m := by
      rw [hlen]
      rcases hv with hh | hh <;> subst hh <;>
        [rw [show ((2:Int).toNat) = 2 from rfl]; rw [show ((3:Int).toNat) = 3 from rfl]] <;>
        omega
    constructor
    · intro i hi
      have hb := fanFrom_three_mem i 0 (m - 2) hi
      rw [hvcount]
      refine ⟨hb.1, ?_⟩
      have h2 := hb.2
      push_cast at h2 ⊢
      omega
    · intro k hk
      rw [fanFrom_three_length] at hk
      have hkm : k < m - 2 := by omega
      have hg := fanFrom_three_getD k 0 (m - 2) hkm
      rintro ⟨h1, h2⟩
      rw [hg.1, hg.2.1] at h1
      omega

/-- C2 witness: the unit square run returns indices 0,1,2,0,2,3, all below
the vertex count 4, with two non-degenerate triangles. -/
theorem element_indices_valid_witness :
    (∀ i ∈ ([0, 1, 2, 0, 2, 3] : List Int), 0 ≤ i ∧
        i < ((([0, 0, 1, 0, 1, 1, 0, 1] : List ℤ).length / (2 : Int).toNat : Nat) : Int)) ∧
    (∀ k : Nat, 3 * k + 2 < ([0, 1, 2, 0, 2, 3] : List Int).length →
      ¬(([0, 1, 2, 0, 2, 3] : List Int).getD (3 * k) 0
          = ([0, 1, 2, 0, 2, 3] : List Int).getD (3 * k + 1) 0 ∧
        ([0, 1, 2, 0, 2, 3] : List Int).getD (3 * k + 1) 0
          = ([0, 1, 2, 0, 2, 3] : List Int).getD (3 * k + 2) 0)) :=
  element_indices_valid
    (⟨some { tessNewTess with contours := [(2, [0, 0, 1, 0, 1, 1, 0, 1])] }⟩ : Tessellator ℤ)
    (⟨some { tessNewTess with
        outVertices := some [0, 0, 1, 0, 1, 1, 0, 1]
        outVertexCount := 4
        outElements := some [0, 1, 2, 0, 2, 3]
        outElementCount := 2 }⟩ : Tessellator ℤ)
    WindingRule.odd 2 (Or.inl rfl) none [0, 0, 1, 0, 1, 1, 0, 1] [0, 1, 2, 0, 2, 3] (by decide)

theorem tessTesselate_true_status (c : CTess R) (rule : WindingRule) (et ps vsz : Int)
    (nv : Option (R × R × R)) (h : (tessTesselate c rule et ps vsz nv).2 = true) :
    (tessTesselate c rule et ps vsz nv).1.status = Status.ok := by
  by_cases hps : ps < 3
  · rw [tessTesselate, if_pos hps] at h
    simp at h
  · rw [tessTesselate, if_neg hps]
    split
    · rename_i coords heq
      simp only []
      split
      · rfl
      · rfl
    · rfl

theorem tessellate_unsupported_elem (t : Tessellator R) (c0 c2 : CTess R)
    (ht : t.tess = some c0) (rule : WindingRule) (et ps vsz : Int) (nrm : Option (List R))
    (hint : t.internalTessellate rule et ps vsz nrm = (⟨some c2⟩, none))
    (hok : c2.status = Status.ok)
    (hnq : ¬(et = ElementPolygons ∨ et = ElementConnectedPolygons ∨
      et = ElementBoundaryContours)) :
    t.Tessellate rule et ps vsz nrm
      = (⟨some c2⟩, none, none, some (GoErr.unsupportedElementType et)) := by
  have hst : ¬(Tessellator.getStatus (⟨some c2⟩ : Tessellator R) ≠ Status.ok) := by
    simp [Tessellator.getStatus, hok]
  rw [Tessellator.Tessellate, ht, hint]
  simp only []
  cases hgv : Tessellator.getVertices (⟨some c2⟩ : Tessellator R) vsz <;>
    simp only [hgv, if_neg hst, if_neg hnq]

/-- C9 (amended): Tessellate returns a non-nil error exactly when the run
fails: nil or deleted instance, vertexSize outside 2 and 3, a supplied
normal shorter than 3 components, an element type other than the three
supported constants, or the underlying tessellation reporting failure; on
a nil error both returned slices are non-nil, with empty slices
substituted when the run produced no vertices or no elements. -/
theorem tessellate_error_iff (t : Tessellator R) (rule : WindingRule) (et ps vsz : Int)
    (nrm : Option (List R)) :
    ((t.Tessellate rule et ps vsz nrm).2.2.2 ≠ none ↔
      (t.tess = none ∨ (vsz ≠ 2 ∧ vsz ≠ 3) ∨ (∃ l, nrm = some l ∧ l.length < 3) ∨
       ¬(et = ElementPolygons ∨ et = ElementConnectedPolygons ∨
          et = ElementBoundaryContours) ∨
       (∃ c, t.tess = some c ∧
          (tessTesselate c rule et ps vsz
            (nrm.map (fun l => (l.getD 0 0, l.getD 1 0, l.getD 2 0)))).2 = false))) ∧
    ((t.Tessellate rule et ps vsz nrm).2.2.2 = none →
      ∃ v i, (t.Tessellate rule et ps vsz nrm).2.1 = some v ∧
        (t.Tessellate rule et ps vsz nrm).2.2.1 = some i ∧
        ((t.Tessellate rule et ps vsz nrm).1.getVertexCount = 0 → v = []) ∧
        ((t.Tessellate rule et ps vsz nrm).1.getElementCount = 0 → i = [])) := by
  rcases t with ⟨_ | c⟩
  · constructor
    · rw [Tessellator.Tessellate]
      simp
    · rw [Tessellator.Tessellate]
      simp
  · by_cases hbad : vsz ≠ 2 ∧ vsz ≠ 3
    · have hint : (⟨some c⟩ : Tessellator R).internalTessellate rule et ps vsz nrm
          = ((⟨some c⟩ : Tessellator R), some (GoErr.badVertexSize vsz)) := by
        rw [Tessellator.internalTessellate]
        simp only [if_pos hbad]
      rw [tessellate_internal_err _ c rfl _ _ _ _ _ _ _ hint]
      constructor
      · simp [hbad]
      · simp
    · have hv : vsz = 2 ∨ vsz = 3 := by
        by_cases h2 : vsz = 2
        · exact Or.inl h2
        · push_neg at hbad
          exact Or.inr (hbad h2)
      by_cases hnrm : ∀ l, nrm = some l → 3 ≤ l.length
      case neg =>
        push_neg at hnrm
        obtain ⟨l, hl, hlen⟩ := hnrm
        subst hl
        have hlt : (l.length : Int) < 3 := by exact_mod_cast hlen
        have hint : (⟨some c⟩ : Tessellator R).internalTessellate rule et ps vsz (some l)
            = ((⟨some c⟩ : Tessellator R), some (GoErr.badNormal l.length)) := by
          rw [Tessellator.internalTessellate]
          simp only [if_neg hbad, if_pos hlt]
        rw [tessellate_internal_err _ c rfl _ _ _ _ _ _ _ hint]
        constructor
        · constructor
          · intro _
            exact Or.inr (Or.inr (Or.inl ⟨l, rfl, hlen⟩))
          · intro _
            simp
        · simp
      case pos =>
        have hrun := internalTessellate_run c rule et ps vsz hv nrm hnrm
        by_cases hflag : (tessTesselate c rule et ps vsz
            (nrm.map (fun l => (l.getD 0 0, l.getD 1 0, l.getD 2 0)))).2 = false
        · rw [if_pos hflag] at hrun
          rw [tessellate_internal_err _ c rfl _ _ _ _ _ _ _ hrun]
          constructor
          · constructor
            · intro _
              exact Or.inr (Or.inr (Or.inr (Or.inr ⟨c, rfl, hflag⟩)))
            · intro _
              simp
          · simp
        · rw [if_neg hflag] at hrun
          have htrue : (tessTesselate c rule et ps vsz
              (nrm.map (fun l => (l.getD 0 0, l.getD 1 0, l.getD 2 0)))).2 = true := by
            revert hflag
            cases (tessTesselate c rule et ps vsz
              (nrm.map (fun l => (l.getD 0 0, l.getD 1 0, l.getD 2 0)))).2 <;> simp
          have hok := tessTesselate_true_status c rule et ps vsz _ htrue
          by_cases hq : et = ElementPolygons ∨ et = ElementConnectedPolygons ∨
            et = ElementBoundaryContours
          case neg =>
            rw [tessellate_unsupported_elem _ c _ rfl _ _ _ _ _ hrun hok hq]
            constructor
            · constructor
              · intro _
                exact Or.inr (Or.inr (Or.inr (Or.inl hq)))
              · intro _
                simp
            · simp
          case pos =>
          have hT := tessellate_success_poly (⟨some c⟩ : Tessellator R) c _ rfl rule
            et ps vsz nrm hrun hok hq
          rw [hT]
          constructor
          · constructor
            · intro hcontra
              simp at hcontra
            · rintro (hh | hh | ⟨l, hl, hlen⟩ | hh | ⟨c2, hc2, hfl⟩)
              · simp at hh
              · exact absurd hh hbad
              · subst hl
                exact absurd (hnrm l rfl) (by omega)
              · exact absurd hq hh
              · injection hc2 with hc2e
                subst hc2e
                exact absurd hfl hflag
          · intro _
            refine ⟨_, _, rfl, rfl, ?_, ?_⟩
            · intro hzero
              have hz : (tessTesselate c rule et ps vsz
                  (nrm.map (fun l => (l.getD 0 0, l.getD 1 0, l.getD 2 0)))).1.outVertexCount
                  = 0 := hzero
              have hgv : Tessellator.getVertices
                  (⟨some (tessTesselate c rule et ps vsz
                    (nrm.map (fun l => (l.getD 0 0, l.getD 1 0, l.getD 2 0)))).1⟩ :
                      Tessellator R) vsz = none := by
                rw [Tessellator.getVertices]
                simp only [hz, if_true]
              rw [hgv]
              rfl
            · intro hzero
              have hz : (tessTesselate c rule et ps vsz
                  (nrm.map (fun l => (l.getD 0 0, l.getD 1 0, l.getD 2 0)))).1.outElementCount
                  = 0 := hzero
              have hge : Tessellator.getElementsWithSize
                  (⟨some (tessTesselate c rule et ps vsz
                    (nrm.map (fun l => (l.getD 0 0, l.getD 1 0, l.getD 2 0)))).1⟩ :
                      Tessellator R) et ps = none := by
                rw [Tessellator.getElementsWithSize]
                simp only [hz, if_true]
              rw [hge]
              rfl

/-- C9 witness: a deleted tessellator run fails, matching the first failure
cause. -/
theorem tessellate_error_iff_witness :
    ((⟨none⟩ : Tessellator ℤ).Tessellate WindingRule.odd ElementPolygons 3 2 none).2.2.2
      ≠ none :=
  (tessellate_error_iff (⟨none⟩ : Tessellator ℤ) WindingRule.odd ElementPolygons 3 2
    none).1.mpr (Or.inl rfl)

/-- C9 counterexample: the claim as stated is false at element type 5 on a
fresh live tessellator with vertexSize 2, polySize 3 and no normal: the
call returns the unsupported-element-type error from the switch default of
Tessellate, yet the instance is live, the vertexSize is valid, no normal
is supplied, and the engine reports success, so none of the four claimed
failure causes holds. -/
theorem tessellate_error_iff_counterexample :
    ¬(((⟨some (tessNewTess : CTess ℤ)⟩ : Tessellator ℤ).Tessellate WindingRule.odd 5 3 2
          none).2.2.2 ≠ none ↔
      ((⟨some (tessNewTess : CTess ℤ)⟩ : Tessellator ℤ).tess = none ∨
       ((2 : Int) ≠ 2 ∧ (2 : Int) ≠ 3) ∨
       (∃ l : List ℤ, (none : Option (List ℤ)) = some l ∧ l.length < 3) ∨
       (∃ c : CTess ℤ, (⟨some (tessNewTess : CTess ℤ)⟩ : Tessellator ℤ).tess = some c ∧
          (tessTesselate c WindingRule.odd 5 3 2
            ((none : Option (List ℤ)).map
              (fun l => (l.getD 0 0, l.getD 1 0, l.getD 2 0)))).2 = false))) := by
  intro h
  have herr : ((⟨some (tessNewTess : CTess ℤ)⟩ : Tessellator ℤ).Tessellate WindingRule.odd
      5 3 2 none).2.2.2 ≠ none := by decide
  rcases h.mp herr with hh | hh | ⟨l, hl, _⟩ | ⟨c, hc, hfl⟩
  · exact absurd hh (by decide)
  · exact absurd hh (by decide)
  · cases hl
  · injection hc with hce
    subst hce
    exact absurd hfl (by decide)
